import Mathlib

set_option maxRecDepth 100000

/-!
Shallow embedding of the MRI noise-masking app's session timeline engine.

The engine lives in two near-identical files:
  * `frontend/app/index.tsx` (native-shell variant), modelled in namespace `Native`;
  * `frontend/app/web.tsx` (browser variant), modelled in namespace `Web`.

The per-second `setInterval` callback created by `startMRISimulation` is modelled
as the pure function `tick` acting on the callback's closure variables
(`currentTime`, `sequenceIndex`, `sequenceStartTime`).  The surrounding React
component (`startSession`, `stopSession`, `adjustVolume`, the timer refs and the
UI state setters) is modelled as explicit state passing over `AppState`, with
calls to external collaborators (audio sink, backend session API, UI progress
state) recorded as an event list `Ev`.

Modelling conventions:
  * JS numbers are modelled as `ℚ` (all arithmetic in the engine is exact:
    additions of 1, multiplications, divisions and min/max of rationals).
  * `setInterval` handles are modelled as a list of live `Interval` records plus
    the `progressTimer.current` ref holding the id of the most recently created
    interval; `clearInterval` removes an id from the live list.  Crucially,
    `startMRISimulation` overwrites the ref WITHOUT clearing the previous
    interval, exactly as the source does.
  * React state reads inside callbacks are modelled as reads of the current
    component state (React's stale-closure capture of `volume`, `sound` and
    `stopSession` by the interval callback is not modelled; the closure-local
    `let` variables of `startMRISimulation` are modelled per interval).
  * In JS, `currentTime / totalDuration` with `totalDuration = 0` yields
    `Infinity` and `Math.min(Infinity, 100) = 100`; `currentTime ≥ 1` at every
    tick, so the zero-duration case is modelled by an explicit branch yielding
    `100`.
-/

namespace MRIMasking

/-- One entry of `sequence_pattern` in an `MRIPattern`
(`{frequency, duration, intensity}` in the source). -/
structure SequencePhase where
  frequency : ℚ
  duration : ℚ
  intensity : ℚ
deriving Repr, DecidableEq

/-- The fields of an `MRIPattern` consumed by the timeline engine:
`duration_minutes` and `sequence_pattern`.  The id/name/noise fields play no
role in the simulation. -/
structure MRIPattern where
  duration_minutes : ℚ
  sequence_pattern : List SequencePhase
deriving Repr, DecidableEq

/-- The closure-local variables of the `setInterval` callback created by
`startMRISimulation`: `let currentTime = 0; let sequenceIndex = 0;
let sequenceStartTime = 0;`. -/
structure TickState where
  currentTime : ℚ
  sequenceIndex : ℕ
  sequenceStartTime : ℚ
deriving Repr, DecidableEq

/-- The observable outputs of one run of the interval callback:
the values passed to `setScanProgress` and `setTimeRemaining`, the phase label
passed to `setCurrentPhase` (absent when the sequence list is empty or the index
is out of bounds), the volume pushed to the audio sink (absent when no audio
object is loaded or the phase branch is skipped), and whether the
`currentTime >= totalDuration` auto-stop check fired. -/
structure TickOutput where
  scanProgress : ℚ
  timeRemaining : ℚ
  phaseName : Option String
  volumeCmd : Option ℚ
  autoStop : Bool
deriving Repr, DecidableEq

/-- Calls to external collaborators recorded while the component runs:
audio stop (`sound.stopAsync()` / `audio.pause()`), the backend completion call
(`PUT /api/sessions/{id}/complete`), the UI progress/time/phase state updates,
and volume pushes to the audio sink. -/
inductive Ev where
  | audioStop : Ev
  | completePUT : ℕ → Ev
  | progress : ℚ → Ev
  | timeRemaining : ℚ → Ev
  | phase : String → Ev
  | setVolume : ℚ → Ev
deriving Repr, DecidableEq

/-- A live `setInterval` schedule created by `startMRISimulation`, carrying the
values of the creating call's local constants (`totalDuration`, `sequences`)
and the mutable closure state. -/
structure Interval where
  id : ℕ
  total : ℚ
  sequences : List SequencePhase
  st : TickState
deriving Repr, DecidableEq

/-- The component state of `MRINoiseMaskingApp` relevant to the engine:
the live intervals, the `progressTimer.current` ref (holding an interval id),
whether a `sound` object is loaded, the backend session id, `isPlaying`,
the UI state (`scanProgress`, `timeRemaining`, `currentPhase`), the id counter
for freshly created intervals, and the `volume` state. -/
structure AppState where
  live : List Interval
  progressTimerRef : Option ℕ
  sound : Bool
  currentSession : Option ℕ
  isPlaying : Bool
  scanProgress : ℚ
  timeRemaining : ℚ
  currentPhase : String
  nextId : ℕ
  volume : ℚ
deriving Repr, DecidableEq

namespace Native

/-- The body of the `setInterval` callback in `startMRISimulation`
(`frontend/app/index.tsx`, lines 247-280), as a function of the closure state.
`volume` and `hasAudio` are the component's `volume` and `sound` values read by
the callback.  Note that `phaseName` and the volume computation use
`currentSequence` as fetched BEFORE a possible index advance, while `phaseName`
uses the possibly advanced `sequenceIndex`, exactly as in the source. -/
def tick (totalDuration : ℚ) (sequences : List SequencePhase) (volume : ℚ)
    (hasAudio : Bool) (s : TickState) : TickState × TickOutput :=
  let currentTime := s.currentTime + 1
  let progress := currentTime / totalDuration * 100
  let scanProgress := if totalDuration = 0 then (100 : ℚ) else min progress 100
  let timeRemaining := max (totalDuration - currentTime) 0
  match sequences.get? s.sequenceIndex with
  | none =>
      (⟨currentTime, s.sequenceIndex, s.sequenceStartTime⟩,
       ⟨scanProgress, timeRemaining, none, none, decide (totalDuration ≤ currentTime)⟩)
  | some currentSequence =>
      let sequenceElapsed := currentTime - s.sequenceStartTime
      let advance := currentSequence.duration ≤ sequenceElapsed ∧
        s.sequenceIndex < sequences.length - 1
      let sequenceIndex := if advance then s.sequenceIndex + 1 else s.sequenceIndex
      let sequenceStartTime := if advance then currentTime else s.sequenceStartTime
      let phaseName := "Phase " ++ toString (sequenceIndex + 1) ++ ": " ++
        toString currentSequence.frequency ++ "Hz"
      let intensityFactor := currentSequence.intensity / 120
      let adjustedVolume := min (volume * intensityFactor) 1
      (⟨currentTime, sequenceIndex, sequenceStartTime⟩,
       ⟨scanProgress, timeRemaining, some phaseName,
        if hasAudio then some adjustedVolume else none,
        decide (totalDuration ≤ currentTime)⟩)

/-- Iterated closure state: the state of the interval callback's variables after
`n` firings, starting from the zeroed state set up by `startMRISimulation`. -/
def runTicks (totalDuration : ℚ) (sequences : List SequencePhase) (volume : ℚ)
    (hasAudio : Bool) : ℕ → TickState
  | 0 => ⟨0, 0, 0⟩
  | n + 1 =>
      (tick totalDuration sequences volume hasAudio
        (runTicks totalDuration sequences volume hasAudio n)).1

/-- Output of the `(n+1)`-th firing of the interval callback. -/
def tickOutput (totalDuration : ℚ) (sequences : List SequencePhase) (volume : ℚ)
    (hasAudio : Bool) (n : ℕ) : TickOutput :=
  (tick totalDuration sequences volume hasAudio
    (runTicks totalDuration sequences volume hasAudio n)).2

/-- The events emitted by one non-stopping run of the interval callback:
`setScanProgress`, `setTimeRemaining`, then (inside the phase branch)
`setCurrentPhase` and the audio-sink volume push. -/
def tickEvents (out : TickOutput) : List Ev :=
  [Ev.progress out.scanProgress, Ev.timeRemaining out.timeRemaining] ++
    (match out.phaseName with
     | some l => [Ev.phase l]
     | none => []) ++
    (match out.volumeCmd with
     | some v => [Ev.setVolume v]
     | none => [])

/-- The initial component state: no timers, no sound loaded, no session,
`isPlaying = false`, zeroed UI state, `volume = 0.7` (`useState(0.7)`). -/
def initState : AppState :=
  ⟨[], none, false, none, false, 0, 0, "", 0, 0.7⟩

/-- Model of `stopSession` (`frontend/app/index.tsx`, lines 201-231):
stop the sound if loaded, `clearInterval(progressTimer.current)` (the ref is
NOT nulled and the sound handle is NOT cleared), `PUT .../complete` if a
session exists, then reset `isPlaying`, `scanProgress`, `timeRemaining`,
`currentPhase` and `currentSession`.  The whole body is wrapped in try/catch
in the source, so no error ever surfaces. -/
def stopSession (s : AppState) : AppState × List Ev :=
  let ev1 := if s.sound then [Ev.audioStop] else []
  let live := match s.progressTimerRef with
    | some tid => s.live.filter (fun i => i.id ≠ tid)
    | none => s.live
  let ev2 := match s.currentSession with
    | some sid => [Ev.completePUT sid]
    | none => []
  (⟨live, s.progressTimerRef, s.sound, none, false, 0, 0, "", s.nextId, s.volume⟩,
   ev1 ++ ev2 ++ [Ev.progress 0, Ev.timeRemaining 0, Ev.phase ""])

/-- Model of `startMRISimulation` (`frontend/app/index.tsx`, lines 233-281) for
a selected pattern `p` (the `if (!selectedMRIPattern) return` guard is
discharged by taking `p` as an argument): compute
`totalDuration = duration_minutes * 60`, emit the initial
`setTimeRemaining(totalDuration)` and `setScanProgress(0)`, and create a fresh
interval with zeroed closure state.  The new interval id is stored into
`progressTimer.current` WITHOUT clearing any previously scheduled interval,
exactly as in the source. -/
def startMRISimulation (p : MRIPattern) (s : AppState) : AppState × List Ev :=
  let totalDuration := p.duration_minutes * 60
  let itv : Interval := ⟨s.nextId, totalDuration, p.sequence_pattern, ⟨0, 0, 0⟩⟩
  (⟨s.live ++ [itv], some s.nextId, s.sound, s.currentSession, s.isPlaying,
    0, totalDuration, s.currentPhase, s.nextId + 1, s.volume⟩,
   [Ev.timeRemaining totalDuration, Ev.progress 0])

/-- Model of `startSession` (`frontend/app/index.tsx`, lines 160-199) with both
a pattern and a sound profile selected: `POST /api/sessions` returns the
backend id `sid`, `loadAudioFile` loads a sound, `startMRISimulation` starts
the schedule, then `setIsPlaying(true)`.  No validation of the pattern is
performed anywhere on this path. -/
def startSession (p : MRIPattern) (sid : ℕ) (s : AppState) : AppState × List Ev :=
  let s1 : AppState := { s with currentSession := some sid, sound := true }
  let r := startMRISimulation p s1
  ({ r.1 with isPlaying := true }, r.2)

/-- Model of `adjustVolume` (`frontend/app/index.tsx`, lines 283-288):
store the new value unconditionally, and while a sound is loaded and playing
forward it unchanged to the audio sink.  No range validation is performed. -/
def adjustVolume (newVolume : ℚ) (s : AppState) : AppState × List Ev :=
  ({ s with volume := newVolume },
   if s.sound && s.isPlaying then [Ev.setVolume newVolume] else [])

/-- One firing of the interval whose handle is `id`.  A cleared (removed)
interval never fires again, modelling `clearInterval`.  A firing runs `tick`
on the interval's closure state with the component's current `volume` and
`sound`, writes the UI state, updates the closure state in place, and, when
the `currentTime >= totalDuration` check fires, calls `stopSession`. -/
def fireTick (id : ℕ) (s : AppState) : AppState × List Ev :=
  match s.live.find? (fun i => i.id == id) with
  | none => (s, [])
  | some itv =>
      let r := tick itv.total itv.sequences s.volume s.sound itv.st
      let live := s.live.map (fun i => if i.id == id then { i with st := r.1 } else i)
      let sMid : AppState :=
        ⟨live, s.progressTimerRef, s.sound, s.currentSession, s.isPlaying,
         r.2.scanProgress, r.2.timeRemaining, (r.2.phaseName).getD s.currentPhase,
         s.nextId, s.volume⟩
      if r.2.autoStop then
        let rStop := stopSession sMid
        (rStop.1, tickEvents r.2 ++ rStop.2)
      else
        (sMid, tickEvents r.2)

/-- Fire the interval `id` a total of `n` times in succession, accumulating the
emitted events. -/
def fireN (id : ℕ) (s : AppState) : ℕ → AppState × List Ev
  | 0 => (s, [])
  | n + 1 =>
      let r := fireN id s n
      let r2 := fireTick id r.1
      (r2.1, r.2 ++ r2.2)

end Native

namespace Web

/-- The body of the `setInterval` callback in the browser variant's
`startMRISimulation` (`frontend/app/web.tsx`, lines 276-311), transcribed
independently.  The only difference from the native variant is the volume-push
mechanism: `audio.gainNode.gain.value = v` when a Web Audio gain node exists,
else `audio.volume = v`; both branches assign the same `adjustedVolume`, so the
output records the pushed value and `hasGain` selects only the mechanism. -/
def tick (totalDuration : ℚ) (sequences : List SequencePhase) (volume : ℚ)
    (hasAudio : Bool) (hasGain : Bool) (s : TickState) : TickState × TickOutput :=
  let currentTime := s.currentTime + 1
  let progress := currentTime / totalDuration * 100
  let scanProgress := if totalDuration = 0 then (100 : ℚ) else min progress 100
  let timeRemaining := max (totalDuration - currentTime) 0
  match sequences.get? s.sequenceIndex with
  | none =>
      (⟨currentTime, s.sequenceIndex, s.sequenceStartTime⟩,
       ⟨scanProgress, timeRemaining, none, none, decide (totalDuration ≤ currentTime)⟩)
  | some currentSequence =>
      let sequenceElapsed := currentTime - s.sequenceStartTime
      let advance := currentSequence.duration ≤ sequenceElapsed ∧
        s.sequenceIndex < sequences.length - 1
      let sequenceIndex := if advance then s.sequenceIndex + 1 else s.sequenceIndex
      let sequenceStartTime := if advance then currentTime else s.sequenceStartTime
      let phaseName := "Phase " ++ toString (sequenceIndex + 1) ++ ": " ++
        toString currentSequence.frequency ++ "Hz"
      let intensityFactor := currentSequence.intensity / 120
      let adjustedVolume := min (volume * intensityFactor) 1
      let pushed := if hasAudio then
          (if hasGain then some adjustedVolume else some adjustedVolume)
        else none
      (⟨currentTime, sequenceIndex, sequenceStartTime⟩,
       ⟨scanProgress, timeRemaining, some phaseName, pushed,
        decide (totalDuration ≤ currentTime)⟩)

/-- Iterated closure state of the browser variant's interval callback. -/
def runTicks (totalDuration : ℚ) (sequences : List SequencePhase) (volume : ℚ)
    (hasAudio : Bool) (hasGain : Bool) : ℕ → TickState
  | 0 => ⟨0, 0, 0⟩
  | n + 1 =>
      (tick totalDuration sequences volume hasAudio hasGain
        (runTicks totalDuration sequences volume hasAudio hasGain n)).1

end Web

/-- Number of backend session-completion calls in an event list. -/
def isCompleteEv : Ev → Bool
  | .completePUT _ => true
  | _ => false

/-- Count of `completePUT` events — the "completion signal" of the spec. -/
def countCompletes (l : List Ev) : ℕ := (l.filter isCompleteEv).length

/-- Modelled from the spec: the phase-advance rule claimed in §4.1 step 4 —
"WHILE `phaseElapsedSeconds >= phases[currentPhaseIndex].durationSeconds` AND
`currentPhaseIndex < phases.length - 1`: increment `currentPhaseIndex`, reset
`phaseElapsedSeconds` to 0 without carrying overflow" — written with explicit
fuel (the while loop runs at most `phases.length` iterations).  This definition
follows the claim's words; the source uses a single `if`, not a loop. -/
def specWhileAdvance (sequences : List SequencePhase) :
    ℕ → ℕ → ℚ → ℕ × ℚ
  | 0, idx, pe => (idx, pe)
  | fuel + 1, idx, pe =>
      match sequences.get? idx with
      | none => (idx, pe)
      | some c =>
          if c.duration ≤ pe ∧ idx < sequences.length - 1 then
            specWhileAdvance sequences fuel (idx + 1) 0
          else (idx, pe)

/-- The example pattern of spec §8: `totalDurationSeconds = 6` (so
`duration_minutes = 1/10`), phases `[{1500Hz, 4s, 120dB}, {2000Hz, 2s, 60dB}]`. -/
def examplePattern : MRIPattern :=
  ⟨1 / 10, [⟨1500, 4, 120⟩, ⟨2000, 2, 60⟩]⟩

/-- A pattern with several consecutive zero-length phases, separating the
spec's while-loop advance rule from the source's single `if`. -/
def shortPhaseSeqs : List SequencePhase :=
  [⟨1, 0, 100⟩, ⟨2, 0, 100⟩, ⟨3, 5, 100⟩]

/-- The pattern of spec §8's restart scenario: `totalDurationSeconds = 10`
(so `duration_minutes = 1/6`), one 10-second phase. -/
def pattern10 : MRIPattern := ⟨1 / 6, [⟨1000, 10, 120⟩]⟩

/-- The component state of spec §8's restart scenario: start `pattern10`,
fire 3 ticks, then call `start` again while still running. -/
def restartScenario : AppState :=
  (Native.startSession pattern10 2
    (Native.fireN 0 (Native.startSession pattern10 1 Native.initState).1 3).1).1

/-- The component state after starting `examplePattern` and firing 5 of its
6 ticks: still running, one tick away from natural completion. -/
def exampleBeforeLastTick : AppState :=
  (Native.fireN 0 (Native.startSession examplePattern 7 Native.initState).1 5).1

/-- A pattern with a positive duration (1 minute, i.e. 60 seconds) and an
empty `sequence_pattern`, as in spec §8's `start()`-with-`phases=[]` test. -/
def emptyPhasesPattern : MRIPattern := ⟨1, []⟩

/-- The single-session running invariant used for the completion theorem:
exactly one live interval (id 0) whose closure state is the `n`-times-ticked
state, ref pointing at it, sound loaded, backend session `sid` open, playing,
with the initial volume `0.7`. -/
def IsRunningAt (total : ℚ) (seqs : List SequencePhase) (sid : ℕ) (n : ℕ)
    (s : AppState) : Prop :=
  s.live = [⟨0, total, seqs, Native.runTicks total seqs 0.7 true n⟩] ∧
  s.progressTimerRef = some 0 ∧ s.sound = true ∧ s.currentSession = some sid ∧
  s.isPlaying = true ∧ s.nextId = 1 ∧ s.volume = 0.7

/-!  Helper lemmas about the tick function and event traces. -/

/-- Characterization of the closure-state part of a tick: the elapsed counter
always advances by one, and the phase index/start follow the source's single
`if` advance rule. -/
lemma tick_fst (total : ℚ) (seqs : List SequencePhase) (vol : ℚ) (audio : Bool)
    (s : TickState) :
    (Native.tick total seqs vol audio s).1 =
      match seqs.get? s.sequenceIndex with
      | none => ⟨s.currentTime + 1, s.sequenceIndex, s.sequenceStartTime⟩
      | some c =>
          if c.duration ≤ s.currentTime + 1 - s.sequenceStartTime ∧
              s.sequenceIndex < seqs.length - 1 then
            ⟨s.currentTime + 1, s.sequenceIndex + 1, s.currentTime + 1⟩
          else ⟨s.currentTime + 1, s.sequenceIndex, s.sequenceStartTime⟩ := by
  unfold Native.tick
  cases seqs.get? s.sequenceIndex
  · rfl
  · dsimp only
    split <;> rfl

/-- The elapsed counter after a tick. -/
lemma tick_currentTime (total : ℚ) (seqs : List SequencePhase) (vol : ℚ)
    (audio : Bool) (s : TickState) :
    ((Native.tick total seqs vol audio s).1).currentTime = s.currentTime + 1 := by
  rw [tick_fst]
  cases seqs.get? s.sequenceIndex
  · rfl
  · dsimp only
    split <;> rfl

/-- The elapsed counter after `n` ticks equals `n`. -/
lemma runTicks_currentTime (total : ℚ) (seqs : List SequencePhase) (vol : ℚ)
    (audio : Bool) (n : ℕ) :
    (Native.runTicks total seqs vol audio n).currentTime = (n : ℚ) := by
  induction n with
  | zero => rfl
  | succ n ih =>
      rw [Native.runTicks, tick_currentTime, ih]
      push_cast
      ring

/-- The progress value emitted by a tick. -/
lemma tick_scanProgress (total : ℚ) (seqs : List SequencePhase) (vol : ℚ)
    (audio : Bool) (s : TickState) :
    ((Native.tick total seqs vol audio s).2).scanProgress =
      if total = 0 then 100 else min ((s.currentTime + 1) / total * 100) 100 := by
  unfold Native.tick
  cases seqs.get? s.sequenceIndex <;> rfl

/-- The remaining-time value emitted by a tick. -/
lemma tick_timeRemaining (total : ℚ) (seqs : List SequencePhase) (vol : ℚ)
    (audio : Bool) (s : TickState) :
    ((Native.tick total seqs vol audio s).2).timeRemaining =
      max (total - (s.currentTime + 1)) 0 := by
  unfold Native.tick
  cases seqs.get? s.sequenceIndex <;> rfl

/-- The auto-stop flag of a tick. -/
lemma tick_autoStop (total : ℚ) (seqs : List SequencePhase) (vol : ℚ)
    (audio : Bool) (s : TickState) :
    ((Native.tick total seqs vol audio s).2).autoStop =
      decide (total ≤ s.currentTime + 1) := by
  unfold Native.tick
  cases seqs.get? s.sequenceIndex <;> rfl

/-- Counting completion calls distributes over concatenation. -/
lemma countCompletes_append (a b : List Ev) :
    countCompletes (a ++ b) = countCompletes a + countCompletes b := by
  simp [countCompletes, List.filter_append]

/-- The regular per-tick emissions contain no completion call. -/
lemma countCompletes_tickEvents (out : TickOutput) :
    countCompletes (Native.tickEvents out) = 0 := by
  rcases out with ⟨p, r, pn, vc, st⟩
  cases pn <;> cases vc <;>
    simp [Native.tickEvents, countCompletes, isCompleteEv]

/-!  Claim theorems. -/

/-- C10: the native-shell variant and the browser variant implement the same
timeline logic: for every total duration, phase sequence, base volume, audio
availability and gain-node availability, each tick of the browser variant
produces exactly the same closure state and output (elapsed progress, remaining
time, phase label, applied volume, auto-stop decision) as the native variant,
and the iterated runs coincide at every tick count. -/
theorem c10_variants_identical (total : ℚ) (seqs : List SequencePhase)
    (vol : ℚ) (hasAudio hasGain : Bool) (s : TickState) :
    Web.tick total seqs vol hasAudio hasGain s =
      Native.tick total seqs vol hasAudio s ∧
    ∀ n, Web.runTicks total seqs vol hasAudio hasGain n =
      Native.runTicks total seqs vol hasAudio n := by
  have h : ∀ t : TickState, Web.tick total seqs vol hasAudio hasGain t =
      Native.tick total seqs vol hasAudio t := by
    intro t
    unfold Web.tick Native.tick
    cases seqs.get? t.sequenceIndex
    · rfl
    · dsimp only
      cases hasGain <;> rfl
  refine ⟨h s, ?_⟩
  intro n
  induction n with
  | zero => rfl
  | succ n ih => rw [Web.runTicks, Native.runTicks, ih, h]

/-- C2 counterexample: for the §8 example pattern with `baseVolumeScale = 0.5`,
the applied volume emitted at tick 4 is `0.5`, not the claimed `0.25` — at the
tick that advances the phase index, the source computes the volume from the
sequence fetched before the advance. -/
theorem c2_counterexample :
    (Native.tickOutput (examplePattern.duration_minutes * 60)
        examplePattern.sequence_pattern 0.5 true 3).volumeCmd = some 0.5 ∧
    (Native.tickOutput (examplePattern.duration_minutes * 60)
        examplePattern.sequence_pattern 0.5 true 3).volumeCmd ≠ some 0.25 := by
  with_unfolding_all decide

/-- C2, amended: for the §8 example pattern with `baseVolumeScale = 0.5`, the
phase index transitions from 0 to 1 at tick 4; the applied volume emitted at
ticks 1 through 4 is `0.5` (tick 4's volume is still computed from the first
phase, fetched before the index advance), the volume at ticks 5 and 6 is
`0.25`, and the run auto-stops exactly at tick 6. -/
theorem c2_amended_trace :
    (Native.runTicks (examplePattern.duration_minutes * 60)
        examplePattern.sequence_pattern 0.5 true 3).sequenceIndex = 0 ∧
    (Native.runTicks (examplePattern.duration_minutes * 60)
        examplePattern.sequence_pattern 0.5 true 4).sequenceIndex = 1 ∧
    ((List.range 4).map (fun n =>
      (Native.tickOutput (examplePattern.duration_minutes * 60)
        examplePattern.sequence_pattern 0.5 true n).volumeCmd) =
      [some 0.5, some 0.5, some 0.5, some 0.5]) ∧
    ((Native.tickOutput (examplePattern.duration_minutes * 60)
        examplePattern.sequence_pattern 0.5 true 4).volumeCmd = some 0.25) ∧
    ((Native.tickOutput (examplePattern.duration_minutes * 60)
        examplePattern.sequence_pattern 0.5 true 5).volumeCmd = some 0.25) ∧
    ((List.range 5).map (fun n =>
      (Native.tickOutput (examplePattern.duration_minutes * 60)
        examplePattern.sequence_pattern 0.5 true n).autoStop) =
      [false, false, false, false, false]) ∧
    (Native.tickOutput (examplePattern.duration_minutes * 60)
        examplePattern.sequence_pattern 0.5 true 5).autoStop = true := by
  with_unfolding_all decide

/-- C4 counterexample: for a pattern whose first two phases have duration 0,
the source's single-`if` advance yields phase index 1 after tick 1, while the
claimed while-loop rule (applied to the same post-increment phase-elapsed value
of 1) yields index 2 — the code does not advance past several consecutive short
phases in one tick. -/
theorem c4_counterexample :
    (Native.runTicks 10 shortPhaseSeqs 0.5 true 1).sequenceIndex = 1 ∧
    (specWhileAdvance shortPhaseSeqs shortPhaseSeqs.length 0 1).1 = 2 ∧
    (1 : ℕ) ≠ 2 := by
  with_unfolding_all decide

/-- C4, amended: on each tick, after incrementing elapsed time, the source
performs AT MOST ONE phase advance, by a single `if`: when
`phaseElapsedSeconds ≥ phases[currentPhaseIndex].durationSeconds` and
`currentPhaseIndex < phases.length - 1`, the index is incremented once and the
phase start is reset to the current time (phase-elapsed 0, no overflow carry);
otherwise both are unchanged.  Consecutive short phases therefore take at least
one tick each. -/
theorem c4_single_advance (total : ℚ) (seqs : List SequencePhase) (vol : ℚ)
    (audio : Bool) (s : TickState) (c : SequencePhase)
    (h : seqs.get? s.sequenceIndex = some c) :
    ((Native.tick total seqs vol audio s).1.sequenceIndex,
      (Native.tick total seqs vol audio s).1.sequenceStartTime) =
      if c.duration ≤ s.currentTime + 1 - s.sequenceStartTime ∧
          s.sequenceIndex < seqs.length - 1 then
        (s.sequenceIndex + 1, s.currentTime + 1)
      else (s.sequenceIndex, s.sequenceStartTime) := by
  rw [tick_fst, h]
  dsimp only
  split <;> rfl

/-- C4 witness: the single-advance rule evaluated at tick 4 of the §8 example
pattern (the tick that crosses the first phase boundary). -/
theorem c4_single_advance_witness :
    examplePattern.sequence_pattern.get? 0 = some ⟨1500, 4, 120⟩ ∧
    ((Native.tick 6 examplePattern.sequence_pattern 0.5 true ⟨3, 0, 0⟩).1.sequenceIndex,
      (Native.tick 6 examplePattern.sequence_pattern 0.5 true ⟨3, 0, 0⟩).1.sequenceStartTime) =
      if (⟨1500, 4, 120⟩ : SequencePhase).duration ≤ (3 : ℚ) + 1 - 0 ∧
          (0 : ℕ) < examplePattern.sequence_pattern.length - 1 then
        (0 + 1, (3 : ℚ) + 1)
      else (0, (0 : ℚ)) :=
  ⟨by with_unfolding_all decide,
    c4_single_advance 6 examplePattern.sequence_pattern 0.5 true ⟨3, 0, 0⟩
      ⟨1500, 4, 120⟩ (by with_unfolding_all decide)⟩

/-- C8 counterexample: `adjustVolume(1.5)` raises no error — it is a total
function that stores the out-of-range value, so the engine state is changed,
contradicting the claim that the call fails with `InvalidVolumeError` and
leaves the state unchanged. -/
theorem c8_counterexample :
    (Native.adjustVolume 1.5 Native.initState).1.volume = 1.5 ∧
    (Native.adjustVolume 1.5 Native.initState).1 ≠ Native.initState := by
  with_unfolding_all decide

/-- C8, amended: `adjustVolume` performs no range validation — no
`InvalidVolumeError` exists in the code.  For any new value (in particular any
value outside `[0,1]`) the stored volume becomes exactly that value, the rest
of the state is untouched, and, when a sound is loaded and playing, the raw
value is forwarded unchanged to the audio sink. -/
theorem c8_no_validation (v : ℚ) (s : AppState) (h : v < 0 ∨ 1 < v) :
    (Native.adjustVolume v s).1 = { s with volume := v } ∧
    (Native.adjustVolume v s).2 =
      (if s.sound && s.isPlaying then [Ev.setVolume v] else []) :=
  ⟨rfl, rfl⟩

/-- C8 witness: the no-validation theorem evaluated at `newScale = 1.5` on the
initial state. -/
theorem c8_no_validation_witness :
    ((1.5 : ℚ) < 0 ∨ 1 < (1.5 : ℚ)) ∧
    ((Native.adjustVolume 1.5 Native.initState).1 =
      { Native.initState with volume := 1.5 } ∧
    (Native.adjustVolume 1.5 Native.initState).2 =
      (if Native.initState.sound && Native.initState.isPlaying then
        [Ev.setVolume 1.5] else [])) :=
  ⟨Or.inr (by with_unfolding_all decide),
    c8_no_validation 1.5 Native.initState
      (Or.inr (by with_unfolding_all decide))⟩

/-- C9 counterexample: after one `stopSession` from a running state with a
loaded sound, a second `stopSession` is not a no-op — it emits events again,
including a second audio-stop command (the sound handle is never cleared) and a
second terminal progress reset. -/
theorem c9_counterexample :
    (Native.stopSession
      (Native.stopSession exampleBeforeLastTick).1).2 =
      [Ev.audioStop, Ev.progress 0, Ev.timeRemaining 0, Ev.phase ""] ∧
    (Native.stopSession
      (Native.stopSession exampleBeforeLastTick).1).2 ≠ [] ∧
    Ev.audioStop ∈ (Native.stopSession
      (Native.stopSession exampleBeforeLastTick).1).2 := by
  with_unfolding_all decide

/-- C9, amended: a second `stopSession` in a row raises no error, leaves the
state exactly as the first call left it (idempotent on state, still idle), and
emits no second session-complete call; however it re-emits the audio-stop
command whenever a sound is loaded (the sound handle is not cleared by
`stopSession`) and re-emits the terminal progress/time/phase resets. -/
theorem c9_stop_second_call (s : AppState) :
    (Native.stopSession (Native.stopSession s).1).1 = (Native.stopSession s).1 ∧
    (Native.stopSession (Native.stopSession s).1).2 =
      (if s.sound then [Ev.audioStop] else []) ++
        [Ev.progress 0, Ev.timeRemaining 0, Ev.phase ""] ∧
    countCompletes (Native.stopSession (Native.stopSession s).1).2 = 0 := by
  obtain ⟨live, ref, sound, sess, play, prog, rem, ph, nid, vol⟩ := s
  refine ⟨?_, ?_, ?_⟩
  · unfold Native.stopSession
    cases ref <;> cases sess <;> cases sound <;>
      simp [List.filter_filter]
  · unfold Native.stopSession
    cases ref <;> cases sess <;> cases sound <;> simp
  · unfold Native.stopSession
    cases ref <;> cases sess <;> cases sound <;>
      simp [countCompletes, isCompleteEv]

/-- C7 counterexample: `startSession` with a pattern whose `phases` list is
empty does not fail — the app transitions to playing with a live tick schedule
whose first firing emits progress events, contradicting the claim that
`start()` fails with `InvalidPatternError`, that no schedule begins and that
the state remains idle. -/
theorem c7_counterexample :
    (Native.startSession emptyPhasesPattern 1 Native.initState).1.isPlaying = true ∧
    (Native.startSession emptyPhasesPattern 1 Native.initState).1.live ≠ [] ∧
    (Native.fireTick 0
      (Native.startSession emptyPhasesPattern 1 Native.initState).1).2 ≠ [] := by
  with_unfolding_all decide

/-- C7, amended: `startSession` performs no pattern validation — no
`InvalidPatternError` exists in the code.  For a pattern with empty phases or
non-positive total duration the session still starts: `isPlaying` becomes
true and a fresh interval is scheduled.  With empty phases every tick emits
neither a phase label nor a volume command (progress still advances); with a
non-positive total duration the very first tick triggers the auto-stop. -/
theorem c7_no_validation (p : MRIPattern) (sid : ℕ) (s : AppState)
    (h : p.sequence_pattern = [] ∨ p.duration_minutes * 60 ≤ 0) :
    (Native.startSession p sid s).1.isPlaying = true ∧
    (Native.startSession p sid s).1.live =
      s.live ++ [⟨s.nextId, p.duration_minutes * 60, p.sequence_pattern, ⟨0, 0, 0⟩⟩] ∧
    (Native.startSession p sid s).1.progressTimerRef = some s.nextId ∧
    (p.sequence_pattern = [] → ∀ vol audio n,
      (Native.tickOutput (p.duration_minutes * 60) p.sequence_pattern
        vol audio n).phaseName = none ∧
      (Native.tickOutput (p.duration_minutes * 60) p.sequence_pattern
        vol audio n).volumeCmd = none) ∧
    (p.duration_minutes * 60 ≤ 0 → ∀ vol audio,
      (Native.tickOutput (p.duration_minutes * 60) p.sequence_pattern
        vol audio 0).autoStop = true) := by
  refine ⟨rfl, rfl, rfl, ?_, ?_⟩
  · intro hp vol audio n
    rw [hp]
    unfold Native.tickOutput Native.tick
    simp
  · intro hle vol audio
    unfold Native.tickOutput
    rw [tick_autoStop]
    have : (Native.runTicks (p.duration_minutes * 60) p.sequence_pattern
        vol audio 0).currentTime = 0 := rfl
    rw [this]
    simp only [decide_eq_true_eq]
    linarith

/-- C7 witness: the no-validation theorem evaluated on the empty-phases
pattern from the initial state. -/
theorem c7_no_validation_witness :
    (emptyPhasesPattern.sequence_pattern = [] ∨
      emptyPhasesPattern.duration_minutes * 60 ≤ 0) ∧
    ((Native.startSession emptyPhasesPattern 1 Native.initState).1.isPlaying = true ∧
    (Native.startSession emptyPhasesPattern 1 Native.initState).1.live =
      Native.initState.live ++
        [⟨Native.initState.nextId,
          emptyPhasesPattern.duration_minutes * 60,
          emptyPhasesPattern.sequence_pattern, ⟨0, 0, 0⟩⟩] ∧
    (Native.startSession emptyPhasesPattern 1 Native.initState).1.progressTimerRef =
      some Native.initState.nextId ∧
    (emptyPhasesPattern.sequence_pattern = [] → ∀ vol audio n,
      (Native.tickOutput (emptyPhasesPattern.duration_minutes * 60)
        emptyPhasesPattern.sequence_pattern vol audio n).phaseName = none ∧
      (Native.tickOutput (emptyPhasesPattern.duration_minutes * 60)
        emptyPhasesPattern.sequence_pattern vol audio n).volumeCmd = none) ∧
    (emptyPhasesPattern.duration_minutes * 60 ≤ 0 → ∀ vol audio,
      (Native.tickOutput (emptyPhasesPattern.duration_minutes * 60)
        emptyPhasesPattern.sequence_pattern vol audio 0).autoStop = true)) :=
  ⟨Or.inl rfl, c7_no_validation emptyPhasesPattern 1 Native.initState (Or.inl rfl)⟩

/-- C3, code-bug evidence: in the §8 restart scenario — start `pattern10`
(total 10 s), fire 3 ticks, then call `start()` again — the previous run's
interval (id 0) is still live alongside the new one (id 1): the restart reset
the displayed progress to 0 and elapsed time of the new schedule to 0, but
firing the old schedule still advances it to elapsed 4 and overwrites the
shared progress state to 40%, so the prior schedule was not cancelled. -/
theorem c3_stale_schedule_evidence :
    restartScenario.live.map (fun i => i.id) = [0, 1] ∧
    restartScenario.progressTimerRef = some 1 ∧
    restartScenario.scanProgress = 0 ∧
    (restartScenario.live.map (fun i => i.st.currentTime) = [3, 0]) ∧
    (Native.fireTick 0 restartScenario).1.scanProgress = 40 ∧
    (Native.fireTick 0 restartScenario).2 ≠ [] ∧
    (Native.fireTick 0 restartScenario).1 ≠ restartScenario := by
  with_unfolding_all decide

/-- A tick either keeps the phase index or increments it by one, and an
increment only happens strictly below the last index. -/
lemma tick_sequenceIndex_cases (total : ℚ) (seqs : List SequencePhase)
    (vol : ℚ) (audio : Bool) (s : TickState) :
    (Native.tick total seqs vol audio s).1.sequenceIndex = s.sequenceIndex ∨
    ((Native.tick total seqs vol audio s).1.sequenceIndex = s.sequenceIndex + 1 ∧
      s.sequenceIndex < seqs.length - 1) := by
  rw [tick_fst]
  cases seqs.get? s.sequenceIndex
  · exact Or.inl rfl
  · dsimp only
    split_ifs with hadv
    · exact Or.inr ⟨rfl, hadv.2⟩
    · exact Or.inl rfl

/-- C5: over the life of a run, the phase index is monotonically
non-decreasing across ticks and never exceeds `phases.length - 1`. -/
theorem c5_phase_index_invariant (total : ℚ) (seqs : List SequencePhase)
    (vol : ℚ) (audio : Bool) (h : seqs ≠ []) :
    (∀ n, (Native.runTicks total seqs vol audio n).sequenceIndex ≤
      seqs.length - 1) ∧
    (∀ n m, n ≤ m →
      (Native.runTicks total seqs vol audio n).sequenceIndex ≤
        (Native.runTicks total seqs vol audio m).sequenceIndex) := by
  have hstep : ∀ n,
      (Native.runTicks total seqs vol audio n).sequenceIndex ≤
        (Native.runTicks total seqs vol audio (n + 1)).sequenceIndex ∧
      (Native.runTicks total seqs vol audio (n + 1)).sequenceIndex ≤
        max (Native.runTicks total seqs vol audio n).sequenceIndex
          (seqs.length - 1) := by
    intro n
    rw [Native.runTicks]
    rcases tick_sequenceIndex_cases total seqs vol audio
      (Native.runTicks total seqs vol audio n) with h1 | ⟨h1, h2⟩ <;>
      rw [h1] <;> omega
  have hb : ∀ n, (Native.runTicks total seqs vol audio n).sequenceIndex ≤
      seqs.length - 1 := by
    intro n
    induction n with
    | zero => exact Nat.zero_le _
    | succ n ih =>
        have := (hstep n).2
        omega
  refine ⟨hb, ?_⟩
  intro n m hnm
  induction hnm with
  | refl => exact le_rfl
  | step _ ih => exact le_trans ih (hstep _).1

/-- C5 witness: the invariant evaluated on the §8 example pattern, checked at
tick counts 0 through 6. -/
theorem c5_phase_index_invariant_witness :
    examplePattern.sequence_pattern ≠ [] ∧
    ((∀ n, (Native.runTicks 6 examplePattern.sequence_pattern 0.5 true
        n).sequenceIndex ≤ examplePattern.sequence_pattern.length - 1) ∧
    (∀ n m, n ≤ m →
      (Native.runTicks 6 examplePattern.sequence_pattern 0.5 true
        n).sequenceIndex ≤
      (Native.runTicks 6 examplePattern.sequence_pattern 0.5 true
        m).sequenceIndex)) :=
  ⟨by with_unfolding_all decide,
    c5_phase_index_invariant 6 examplePattern.sequence_pattern 0.5 true
      (by with_unfolding_all decide)⟩

/-- C6: at the `(n+1)`-th tick of a run with positive total duration, the
emitted progress equals `min(100, elapsed/total*100)` and the emitted
remaining time equals `max(0, total - elapsed)` with `elapsed = n+1`;
consequently progress is non-decreasing, stays within `[0, 100]`, reaches
`100` exactly when the elapsed time has reached the total, and remaining
plus elapsed reconstitutes the total whenever elapsed has not exceeded it. -/
theorem c6_progress_remaining (total : ℚ) (seqs : List SequencePhase)
    (vol : ℚ) (audio : Bool) (h : 0 < total) (n : ℕ) :
    (Native.tickOutput total seqs vol audio n).scanProgress =
      min 100 (((n : ℚ) + 1) / total * 100) ∧
    (Native.tickOutput total seqs vol audio n).timeRemaining =
      max 0 (total - ((n : ℚ) + 1)) ∧
    (Native.tickOutput total seqs vol audio n).scanProgress ≤
      (Native.tickOutput total seqs vol audio (n + 1)).scanProgress ∧
    0 ≤ (Native.tickOutput total seqs vol audio n).scanProgress ∧
    (Native.tickOutput total seqs vol audio n).scanProgress ≤ 100 ∧
    ((Native.tickOutput total seqs vol audio n).scanProgress = 100 ↔
      total ≤ (n : ℚ) + 1) ∧
    (((n : ℚ) + 1 ≤ total) →
      (Native.tickOutput total seqs vol audio n).timeRemaining +
        ((n : ℚ) + 1) = total) := by
  have hprog : ∀ k : ℕ, (Native.tickOutput total seqs vol audio k).scanProgress =
      min (((k : ℚ) + 1) / total * 100) 100 := by
    intro k
    unfold Native.tickOutput
    rw [tick_scanProgress, runTicks_currentTime]
    rw [if_neg (ne_of_gt h)]
  have hrem : (Native.tickOutput total seqs vol audio n).timeRemaining =
      max (total - ((n : ℚ) + 1)) 0 := by
    unfold Native.tickOutput
    rw [tick_timeRemaining, runTicks_currentTime]
  refine ⟨?_, ?_, ?_, ?_, ?_, ?_, ?_⟩
  · rw [hprog, min_comm]
  · rw [hrem, max_comm]
  · rw [hprog, hprog]
    push_cast
    gcongr
    linarith
  · rw [hprog]
    have h0 : (0 : ℚ) ≤ ((n : ℚ) + 1) / total * 100 := by positivity
    exact le_min h0 (by norm_num)
  · rw [hprog]
    exact min_le_right _ _
  · rw [hprog, min_eq_right_iff, div_mul_eq_mul_div, le_div_iff h]
    constructor <;> intro hx <;> nlinarith
  · intro hle
    rw [hrem, max_eq_left (by linarith : (0 : ℚ) ≤ total - ((n : ℚ) + 1))]
    ring

/-- C6 witness: the progress/remaining properties evaluated at tick 3 of the
§8 example pattern. -/
theorem c6_progress_remaining_witness :
    (0 : ℚ) < 6 ∧
    ((Native.tickOutput 6 examplePattern.sequence_pattern 0.5 true 2).scanProgress =
      min 100 (((2 : ℕ) + 1 : ℚ) / 6 * 100) ∧
    (Native.tickOutput 6 examplePattern.sequence_pattern 0.5 true 2).timeRemaining =
      max 0 (6 - ((2 : ℕ) + 1 : ℚ)) ∧
    (Native.tickOutput 6 examplePattern.sequence_pattern 0.5 true 2).scanProgress ≤
      (Native.tickOutput 6 examplePattern.sequence_pattern 0.5 true (2 + 1)).scanProgress ∧
    0 ≤ (Native.tickOutput 6 examplePattern.sequence_pattern 0.5 true 2).scanProgress ∧
    (Native.tickOutput 6 examplePattern.sequence_pattern 0.5 true 2).scanProgress ≤ 100 ∧
    ((Native.tickOutput 6 examplePattern.sequence_pattern 0.5 true 2).scanProgress = 100 ↔
      (6 : ℚ) ≤ (2 : ℕ) + 1) ∧
    (((2 : ℕ) + 1 : ℚ) ≤ 6 →
      (Native.tickOutput 6 examplePattern.sequence_pattern 0.5 true 2).timeRemaining +
        ((2 : ℕ) + 1 : ℚ) = 6)) :=
  ⟨by with_unfolding_all decide,
    c6_progress_remaining 6 examplePattern.sequence_pattern 0.5 true
      (by with_unfolding_all decide) 2⟩

/-- Starting a session from the initial state establishes the single-session
running invariant at tick count 0. -/
lemma startSession_isRunning (p : MRIPattern) (sid : ℕ) :
    IsRunningAt (p.duration_minutes * 60) p.sequence_pattern sid 0
      (Native.startSession p sid Native.initState).1 :=
  ⟨rfl, rfl, rfl, rfl, rfl, rfl, rfl⟩

/-- Computation rule for a firing of interval 0 in a state whose only live
interval has id 0. -/
lemma fireTick_singleton (total : ℚ) (seqs : List SequencePhase)
    (st0 : TickState) (ref : Option ℕ) (snd : Bool) (sess : Option ℕ)
    (play : Bool) (pr rem : ℚ) (ph : String) (nid : ℕ) (vol : ℚ) :
    Native.fireTick 0
      ⟨[⟨0, total, seqs, st0⟩], ref, snd, sess, play, pr, rem, ph, nid, vol⟩ =
      (let r := Native.tick total seqs vol snd st0
       let sMid : AppState := ⟨[⟨0, total, seqs, r.1⟩], ref, snd, sess, play,
         r.2.scanProgress, r.2.timeRemaining, (r.2.phaseName).getD ph, nid, vol⟩
       if r.2.autoStop then
         let rStop := Native.stopSession sMid
         (rStop.1, Native.tickEvents r.2 ++ rStop.2)
       else (sMid, Native.tickEvents r.2)) :=
  rfl

/-- Firing the schedule of a running single-session state before the total
duration is reached preserves the invariant (one more tick), keeps the app
playing, and emits no completion call. -/
lemma fireTick_running_step (total : ℚ) (seqs : List SequencePhase) (sid : ℕ)
    (n : ℕ) (s : AppState) (hs : IsRunningAt total seqs sid n s)
    (hstop : ¬ total ≤ (n : ℚ) + 1) :
    IsRunningAt total seqs sid (n + 1) (Native.fireTick 0 s).1 ∧
    countCompletes (Native.fireTick 0 s).2 = 0 := by
  obtain ⟨live, ref, snd, sess, play, pr, rem, ph, nid, vol⟩ := s
  obtain ⟨h1, h2, h3, h4, h5, h6, h7⟩ := hs
  dsimp only at h1 h2 h3 h4 h5 h6 h7
  subst h1 h2 h3 h4 h5 h6 h7
  have hflag : (Native.tick total seqs 0.7 true
      (Native.runTicks total seqs 0.7 true n)).2.autoStop = false := by
    rw [tick_autoStop, runTicks_currentTime]
    exact decide_eq_false hstop
  rw [fireTick_singleton]
  simp only [hflag, Bool.false_eq_true, if_false]
  exact ⟨⟨rfl, rfl, rfl, rfl, rfl, rfl, rfl⟩, countCompletes_tickEvents _⟩

/-- Firing the schedule of a running single-session state at or past the total
duration auto-stops the session: the app stops playing, the schedule is
cancelled, the backend session is closed, and exactly one completion call is
emitted, as the tail of the regular per-tick emissions followed by the
`stopSession` emissions. -/
lemma fireTick_running_stop (total : ℚ) (seqs : List SequencePhase) (sid : ℕ)
    (n : ℕ) (s : AppState) (hs : IsRunningAt total seqs sid n s)
    (hstop : total ≤ (n : ℚ) + 1) :
    (Native.fireTick 0 s).1.isPlaying = false ∧
    (Native.fireTick 0 s).1.live = [] ∧
    (Native.fireTick 0 s).1.currentSession = none ∧
    countCompletes (Native.fireTick 0 s).2 = 1 := by
  obtain ⟨live, ref, snd, sess, play, pr, rem, ph, nid, vol⟩ := s
  obtain ⟨h1, h2, h3, h4, h5, h6, h7⟩ := hs
  dsimp only at h1 h2 h3 h4 h5 h6 h7
  subst h1 h2 h3 h4 h5 h6 h7
  have hflag : (Native.tick total seqs 0.7 true
      (Native.runTicks total seqs 0.7 true n)).2.autoStop = true := by
    rw [tick_autoStop, runTicks_currentTime]
    exact decide_eq_true hstop
  rw [fireTick_singleton]
  simp only [hflag, if_true]
  refine ⟨rfl, rfl, rfl, ?_⟩
  rw [countCompletes_append, countCompletes_tickEvents]
  simp [Native.stopSession, countCompletes, isCompleteEv]

/-- A state with no live interval absorbs every further firing: the schedule
has been cancelled, so nothing fires and nothing is emitted. -/
lemma fireN_dead (id : ℕ) (s : AppState) (h : s.live = []) (m : ℕ) :
    Native.fireN id s m = (s, []) := by
  have hone : Native.fireTick id s = (s, []) := by
    unfold Native.fireTick
    rw [h]
    rfl
  induction m with
  | zero => rfl
  | succ m ih => rw [Native.fireN, ih, hone]; rfl

/-- C1 counterexample: the completion notification is NOT distinct from the
one produced by a user-initiated `stop()`.  For the §8 example pattern, the
events that the natural-completion tick emits beyond the regular per-tick
emissions are exactly the events that a user-initiated `stopSession` from the
same pre-completion state would emit — the auto-stop literally calls
`stopSession`, and no separate completed signal exists. -/
theorem c1_counterexample :
    (Native.fireTick 0 exampleBeforeLastTick).2.take 4 =
      [Ev.progress 100, Ev.timeRemaining 0,
        Ev.phase "Phase 2: 2000Hz", Ev.setVolume (7 / 20)] ∧
    (Native.fireTick 0 exampleBeforeLastTick).2.drop 4 =
      (Native.stopSession exampleBeforeLastTick).2 ∧
    (Native.stopSession exampleBeforeLastTick).2 =
      [Ev.audioStop, Ev.completePUT 7, Ev.progress 0, Ev.timeRemaining 0,
        Ev.phase ""] := by
  with_unfolding_all decide

/-- C1, amended: for every valid pattern (positive total duration, non-empty
phases), after exactly `totalDurationSeconds` ticks the session auto-stops:
the app returns to idle, the schedule is cancelled so no further tick ever
fires, and the session-completion call is emitted exactly once over the whole
run — but it is produced by the same `stopSession` path as a user-initiated
stop (see the counterexample), not by a distinct completion signal. -/
theorem c1_completion (p : MRIPattern) (sid : ℕ) (T : ℕ) (hT : 0 < T)
    (htot : p.duration_minutes * 60 = (T : ℚ)) (hne : p.sequence_pattern ≠ []) :
    (Native.fireN 0 (Native.startSession p sid Native.initState).1 T).1.isPlaying
      = false ∧
    (Native.fireN 0 (Native.startSession p sid Native.initState).1 T).1.live
      = [] ∧
    countCompletes
      (Native.fireN 0 (Native.startSession p sid Native.initState).1 T).2 = 1 ∧
    (∀ n, n < T →
      (Native.fireN 0 (Native.startSession p sid Native.initState).1 n).1.isPlaying
        = true ∧
      countCompletes
        (Native.fireN 0 (Native.startSession p sid Native.initState).1 n).2 = 0) ∧
    (∀ m, Native.fireN 0
        (Native.fireN 0 (Native.startSession p sid Native.initState).1 T).1 m =
      ((Native.fireN 0 (Native.startSession p sid Native.initState).1 T).1, [])) := by
  set total := p.duration_minutes * 60 with htotal
  set seqs := p.sequence_pattern with hseqs
  set s0 := (Native.startSession p sid Native.initState).1 with hs0
  have hinv : ∀ n, n < T →
      IsRunningAt total seqs sid n (Native.fireN 0 s0 n).1 ∧
      countCompletes (Native.fireN 0 s0 n).2 = 0 := by
    intro n
    induction n with
    | zero =>
        intro _
        exact ⟨startSession_isRunning p sid, rfl⟩
    | succ n ih =>
        intro hlt
        have hn := ih (Nat.lt_of_succ_lt hlt)
        have hlt2 : ¬ total ≤ (n : ℚ) + 1 := by
          rw [htot]
          push_cast
          have : (n : ℚ) + 1 < (T : ℚ) := by
            exact_mod_cast hlt
          linarith
        have hstep := fireTick_running_step total seqs sid n
          (Native.fireN 0 s0 n).1 hn.1 hlt2
        constructor
        · exact hstep.1
        · show countCompletes ((Native.fireN 0 s0 n).2 ++
            (Native.fireTick 0 (Native.fireN 0 s0 n).1).2) = 0
          rw [countCompletes_append, hn.2, hstep.2]
  obtain ⟨T', rfl⟩ : ∃ T', T = T' + 1 :=
    ⟨T - 1, (Nat.succ_pred_eq_of_pos hT).symm⟩
  have hlast := hinv T' (Nat.lt_succ_self T')
  have hstop : total ≤ (T' : ℚ) + 1 := by
    rw [htot]
    push_cast
    linarith
  have hfinal := fireTick_running_stop total seqs sid T'
    (Native.fireN 0 s0 T').1 hlast.1 hstop
  have hfire : Native.fireN 0 s0 (T' + 1) =
      ((Native.fireTick 0 (Native.fireN 0 s0 T').1).1,
        (Native.fireN 0 s0 T').2 ++
          (Native.fireTick 0 (Native.fireN 0 s0 T').1).2) := rfl
  refine ⟨?_, ?_, ?_, ?_, ?_⟩
  · rw [hfire]
    exact hfinal.1
  · rw [hfire]
    exact hfinal.2.1
  · rw [hfire]
    dsimp only
    rw [countCompletes_append, hlast.2, hfinal.2.2.2]
  · intro n hlt
    exact ⟨(hinv n hlt).1.2.2.2.2.1, (hinv n hlt).2⟩
  · intro m
    apply fireN_dead
    rw [hfire]
    exact hfinal.2.1

/-- C1 witness: the completion theorem evaluated on the §8 example pattern
(total duration 6 seconds, two phases, backend session id 7). -/
theorem c1_completion_witness :
    (0 < 6 ∧ examplePattern.duration_minutes * 60 = ((6 : ℕ) : ℚ) ∧
      examplePattern.sequence_pattern ≠ []) ∧
    ((Native.fireN 0 (Native.startSession examplePattern 7 Native.initState).1
        6).1.isPlaying = false ∧
    (Native.fireN 0 (Native.startSession examplePattern 7 Native.initState).1
        6).1.live = [] ∧
    countCompletes (Native.fireN 0
        (Native.startSession examplePattern 7 Native.initState).1 6).2 = 1 ∧
    (∀ n, n < 6 →
      (Native.fireN 0 (Native.startSession examplePattern 7 Native.initState).1
        n).1.isPlaying = true ∧
      countCompletes (Native.fireN 0
        (Native.startSession examplePattern 7 Native.initState).1 n).2 = 0) ∧
    (∀ m, Native.fireN 0
        (Native.fireN 0 (Native.startSession examplePattern 7 Native.initState).1
          6).1 m =
      ((Native.fireN 0 (Native.startSession examplePattern 7 Native.initState).1
        6).1, []))) :=
  ⟨⟨by decide, by with_unfolding_all decide, by with_unfolding_all decide⟩,
    c1_completion examplePattern 7 6 (by decide)
      (by with_unfolding_all decide) (by with_unfolding_all decide)⟩

end MRIMasking
